import Mathlib

/-!
# Verification of `importApplicationHandler` (engine/api/application_import.go)

A shallow embedding of the application-import handler: the descriptor data
model, the reference-validation pass, the transactional apply phase
(hooks, pollers, notification settings), the diagnostic-message channel
and its render-time deduplication, and the surrounding transaction
lifecycle.  Store reads and writes are modelled by pure functions over an
explicit `Store`; the scoped transaction is a separate buffer of pending
writes merged into the store only on commit; writes issued on the raw
database handle (`db` rather than `tx` in the source) hit the store
immediately.  Message rendering (`sdk.Message.String(al)`) is kept
abstract as a `render : Message → String` parameter.
-/

/-- A pipeline, carrying its name and database identifier
(`sdk.Pipeline`; identifier `0` is the unresolved sentinel the handler
tests with `h.Pipeline.ID == 0`). -/
structure Pipeline where
  name : String
  id : Nat
deriving DecidableEq

/-- A trigger attached to a pipeline usage (`sdk.PipelineTrigger` as the
handler reads it): destination application name, source environment
name, destination environment name. -/
structure Trigger where
  destApplicationName : String
  srcEnvironmentName : String
  destEnvironmentName : String
deriving DecidableEq

/-- A pipeline attached to the application descriptor together with its
triggers (`sdk.ApplicationPipeline` / `app.Pipelines`). -/
structure PipelineUsage where
  pipeline : Pipeline
  triggers : List Trigger
deriving DecidableEq

/-- An environment record with its database identifier
(`sdk.Environment`). -/
structure Environment where
  name : String
  id : Nat
deriving DecidableEq

/-- A repository webhook from the descriptor (`sdk.Hook` as the handler
uses it): only its pipeline reference matters to the handler. -/
structure Hook where
  pipeline : Pipeline
deriving DecidableEq

/-- A repository poller from the descriptor (`sdk.RepositoryPoller` as
parsed): only its pipeline reference matters to the handler. -/
structure Poller where
  pipeline : Pipeline
deriving DecidableEq

/-- A user-notification setting from the descriptor
(`sdk.UserNotification` as the handler uses it): a pipeline name and an
environment name. -/
structure Notification where
  pipelineName : String
  environmentName : String
deriving DecidableEq

/-- The parsed application descriptor (`sdk.Application` produced by
`payload.Application()`): name, pipeline usages, hooks, pollers,
notification settings, and whether a repositories-manager binding is
present (`app.RepositoriesManager != nil`). -/
structure Application where
  name : String
  repositoryFullname : String
  pipelines : List PipelineUsage
  hooks : List Hook
  repositoryPollers : List Poller
  notifications : List Notification
  hasRepositoriesManager : Bool
deriving DecidableEq

/-- A diagnostic message (`sdk.Message`): kind plus parameters, as built
by `sdk.NewMessage` at each emission site of the handler.  `zero` is the
zero value of the Go struct, received from a closed channel. -/
inductive Message where
  | appImportPipelineNotFound (pipName : String)
  | appImportAppNotFound (appName : String)
  | appImportEnvNotFound (envName : String)
  | hookCreated (repoFullname : String) (pipName : String)
  | pollerCreated (repoFullname : String) (pipName : String)
  | zero
deriving DecidableEq

/-- The structured domain errors the handler returns
(`sdk.ErrApplicationExist`, `sdk.ErrPipelineNotFound`,
`sdk.ErrApplicationNotFound`, `sdk.ErrNoEnvironment`). -/
inductive DomainErr where
  | applicationExist
  | pipelineNotFound
  | applicationNotFound
  | noEnvironment
deriving DecidableEq

/-- A persisted hook row (what `hook.CreateHook` inserts: the
application, the repository full name and the resolved pipeline). -/
structure HookRec where
  appName : String
  pipelineId : Nat
  repoFullname : String
deriving DecidableEq

/-- A persisted poller row (what `poller.Insert` inserts:
`sdk.RepositoryPoller{Application: *app, Pipeline: h.Pipeline}`). -/
structure PollerRec where
  appName : String
  pipelineId : Nat
deriving DecidableEq

/-- A persisted user-notification row (what
`notification.InsertOrUpdateUserNotificationSettings` inserts, keyed by
application, pipeline identifier and environment identifier). -/
structure NotifRec where
  appName : String
  pipelineId : Nat
  envId : Nat
deriving DecidableEq

/-- The observable database state: the project's catalogs plus the rows
the import writes. -/
structure Store where
  pipelines : List Pipeline
  applications : List String
  environments : List Environment
  hooks : List HookRec
  pollers : List PollerRec
  notifications : List NotifRec
deriving DecidableEq

/-- The pending writes of the scoped transaction opened by `db.Begin()`:
rows inserted through `tx`, visible only after `tx.Commit()`. -/
structure Tx where
  newApplications : List String
  newNotifications : List NotifRec
deriving DecidableEq

/-- Modelled from the spec: the default-environment sentinel
(`sdk.DefaultEnv.Name`, the "well-known placeholder name meaning no
specific environment selected"); the sdk package is not part of the
source under scrutiny. -/
def defaultEnvName : String := "NoEnv"

/-- Modelled from the spec: `sdk.DefaultEnv`, the default environment
record; its identifier is the "default environment identifier" the spec
says empty/sentinel environment names map to, and is nonzero (the
handler treats identifier `0` as unresolved). -/
def defaultEnv : Environment := ⟨defaultEnvName, 1⟩

/-- Modelled from the spec: `pipeline.ExistPipeline(tx, proj.ID, name)`,
a read-only existence lookup against the project's pipeline catalog. -/
def pipelineExists (st : Store) (name : String) : Bool :=
  st.pipelines.any (fun p => p.name == name)

/-- Modelled from the spec: `application.Exists(db, proj.ID, name)`, a
read-only existence lookup against the project's application catalog. -/
def applicationExists (st : Store) (name : String) : Bool :=
  st.applications.any (fun a => a == name)

/-- Modelled from the spec: `environment.Exists(tx, proj.Key, name)`, a
read-only existence lookup against the project's environment catalog. -/
def environmentExists (st : Store) (name : String) : Bool :=
  st.environments.any (fun e => e.name == name)

/-- The per-trigger reference checks (source lines 134–167): destination
application when it differs from the imported application's own name,
then source environment, then destination environment, each against the
default-environment sentinel.  Each failed check emits one message on
`msgChan` and assigns `globalError`; the pair records both. -/
def checkTrigger (st : Store) (appName : String) (t : Trigger) :
    List (Message × DomainErr) :=
  (if t.destApplicationName != appName &&
      !applicationExists st t.destApplicationName then
    [(Message.appImportAppNotFound t.destApplicationName,
      DomainErr.applicationNotFound)]
  else []) ++
  (if t.srcEnvironmentName != defaultEnvName &&
      !environmentExists st t.srcEnvironmentName then
    [(Message.appImportEnvNotFound t.srcEnvironmentName,
      DomainErr.noEnvironment)]
  else []) ++
  (if t.destEnvironmentName != defaultEnvName &&
      !environmentExists st t.destEnvironmentName then
    [(Message.appImportEnvNotFound t.destEnvironmentName,
      DomainErr.noEnvironment)]
  else [])

/-- The per-usage checks (source lines 123–168): the usage's pipeline
existence first, then every trigger under the usage. -/
def checkUsage (st : Store) (appName : String) (u : PipelineUsage) :
    List (Message × DomainErr) :=
  (if !pipelineExists st u.pipeline.name then
    [(Message.appImportPipelineNotFound u.pipeline.name,
      DomainErr.pipelineNotFound)]
  else []) ++
  u.triggers.flatMap (checkTrigger st appName)

/-- The whole validation pass (source lines 122–168): every pipeline
usage checked in order, with no early exit. -/
def validation (st : Store) (appName : String)
    (usages : List PipelineUsage) : List (Message × DomainErr) :=
  usages.flatMap (checkUsage st appName)

/-- `lookupPipeline st name`: the project pipeline of that name, if any
(used to model the attach step of `application.Import`). -/
def lookupPipeline (st : Store) (name : String) : Option Pipeline :=
  st.pipelines.find? (fun p => p.name == name)

/-- Modelled from the spec: the pipeline-resolution effect of
`application.Import(tx, proj, app, ...)` (package
`engine/api/application`, not part of the source under scrutiny), which
creates the application record and loads/attaches each of the
descriptor's pipelines, establishing their identifiers ("resolve its
pipeline name against the set of pipelines just created/loaded"). -/
def importedUsages (st : Store) (us : List PipelineUsage) :
    List PipelineUsage :=
  us.map (fun u =>
    match lookupPipeline st u.pipeline.name with
    | some p => { u with pipeline := p }
    | none => u)

/-- The hook/poller resolution loop (source lines 180–185 and 201–206):
scan the descriptor's pipeline usages for one whose pipeline name equals
the reference's name; on a match the reference becomes that usage's
pipeline, otherwise it is left as parsed. -/
def resolveAgainstUsages (usages : List PipelineUsage) (p : Pipeline) :
    Pipeline :=
  match usages.find? (fun u => u.pipeline.name == p.name) with
  | some u => u.pipeline
  | none => p

/-- The running state of the apply phase: the database (written directly
by `hook.CreateHook(db, ...)` and `poller.Insert(db, ...)`) and the
messages sent on `msgChan` so far. -/
structure ApplyState where
  store : Store
  sent : List Message
deriving DecidableEq

/-- The hook loop (source lines 179–197): resolve each hook's pipeline
against the descriptor's usages; an unresolved identifier (`ID == 0`)
sends a `PipelineNotFound` message and returns immediately; otherwise
the hook row is written through the raw `db` handle and a `HookCreated`
message is sent. -/
def applyHooks (app : Application) (usages : List PipelineUsage) :
    ApplyState → List Hook → Except (DomainErr × ApplyState) ApplyState
  | s, [] => Except.ok s
  | s, h :: rest =>
    let p := resolveAgainstUsages usages h.pipeline
    if p.id == 0 then
      Except.error (DomainErr.pipelineNotFound,
        { s with sent := s.sent ++ [Message.appImportPipelineNotFound p.name] })
    else
      applyHooks app usages
        { store := { s.store with hooks := s.store.hooks ++
            [⟨app.name, p.id, app.repositoryFullname⟩] },
          sent := s.sent ++ [Message.hookCreated app.repositoryFullname p.name] }
        rest

/-- The poller loop (source lines 200–224): same resolution as hooks; an
unresolved identifier sends `PipelineNotFound` and returns immediately;
otherwise the poller row is written through the raw `db` handle and a
`PollerCreated` message is sent. -/
def applyPollers (app : Application) (usages : List PipelineUsage) :
    ApplyState → List Poller → Except (DomainErr × ApplyState) ApplyState
  | s, [] => Except.ok s
  | s, h :: rest =>
    let p := resolveAgainstUsages usages h.pipeline
    if p.id == 0 then
      Except.error (DomainErr.pipelineNotFound,
        { s with sent := s.sent ++ [Message.appImportPipelineNotFound p.name] })
    else
      applyPollers app usages
        { store := { s.store with pollers := s.store.pollers ++
            [⟨app.name, p.id⟩] },
          sent := s.sent ++ [Message.pollerCreated app.repositoryFullname p.name] }
        rest

/-- One notification setting (source lines 228–260): look the pipeline
name up among the descriptor's usages (identifier `0` when absent);
map an empty or sentinel environment name to the default environment's
identifier, otherwise look it up among the project's environments
(identifier `0` when absent); then test the pipeline identifier, then
the environment identifier, and build the row to insert.  No message is
sent anywhere in this loop. -/
def applyNotification (st : Store) (appName : String)
    (usages : List PipelineUsage) (n : Notification) :
    Except DomainErr NotifRec :=
  let pipId : Nat :=
    match usages.find? (fun u => u.pipeline.name == n.pipelineName) with
    | some u => u.pipeline.id
    | none => 0
  let envId : Nat :=
    if n.environmentName == "" || n.environmentName == defaultEnvName then
      defaultEnv.id
    else
      match st.environments.find? (fun e => e.name == n.environmentName) with
      | some e => e.id
      | none => 0
  if pipId == 0 then Except.error DomainErr.pipelineNotFound
  else if envId == 0 then Except.error DomainErr.noEnvironment
  else Except.ok ⟨appName, pipId, envId⟩

/-- The notification loop (source lines 227–261): each setting resolved
and inserted through `tx` in order; the first failure returns
immediately. -/
def applyNotifications (st : Store) (appName : String)
    (usages : List PipelineUsage) :
    List Notification → Except DomainErr (List NotifRec)
  | [] => Except.ok []
  | n :: rest =>
    match applyNotification st appName usages n with
    | Except.error e => Except.error e
    | Except.ok row =>
      match applyNotifications st appName usages rest with
      | Except.error e => Except.error e
      | Except.ok rows => Except.ok (row :: rows)

/-- The hook-and-poller stage of the apply phase (source lines
177–225): run only when the descriptor declares a repositories-manager
binding; the hook loop first, then the poller loop, the first failure
propagating. -/
def applyPhase (app : Application) (usages : List PipelineUsage)
    (s : ApplyState) : Except (DomainErr × ApplyState) ApplyState :=
  if app.hasRepositoriesManager then
    match applyHooks app usages s app.hooks with
    | Except.error e => Except.error e
    | Except.ok s1 => applyPollers app usages s1 app.repositoryPollers
  else Except.ok s

/-- What the consumer goroutine receives (source lines 98–107), under
Go's channel semantics: one `(value, true)` per message the producer
sent, in order, then — once the channel is closed and drained — a single
`(zero value, false)`. -/
def channelReceives (sent : List Message) : List (Message × Bool) :=
  sent.map (fun m => (m, true)) ++ [(Message.zero, false)]

/-- The consumer goroutine's loop body (source lines 99–106): store the
received value into `allMsg` first, then test the channel-closed flag
and stop when it is false. -/
def consumerRun : List (Message × Bool) → List Message
  | [] => []
  | (m, ok) :: rest => m :: (if ok then consumerRun rest else [])

/-- One step of the render-and-deduplicate loop (source lines 275–288):
render the message; drop it if the text is empty; drop it if the text is
already in the output list; otherwise append it. -/
def dedupStep (acc : List String) (s : String) : List String :=
  if s == "" then acc
  else if acc.contains s then acc
  else acc ++ [s]

/-- The render-and-deduplicate pass over the accumulated messages
(source lines 272–288), producing `msgListString`. -/
def renderDedup (render : Message → String) (msgs : List Message) :
    List String :=
  msgs.foldl (fun acc m => dedupStep acc (render m)) []

/-- The events the handler performs on the store and transaction, in
order: the up-front existence probe (source line 73), `db.Begin()`
(line 109), `tx.Commit()` (line 304) and the deferred `tx.Rollback()`
(line 114) on every non-committed path. -/
inductive Event where
  | existsCheck (name : String) (result : Bool)
  | txBegin
  | txCommit
  | txRollback
deriving DecidableEq

/-- The handler's terminal outcome: `WriteJSON(w, r, msgListString,
http.StatusOK)` (line 318), `WriteJSON(w, r, msgListString,
myError.Status)` (line 295), or a bare error returned to the router
without any message list (all `return sdk.WrapError(...)` / `return
sdk.ErrApplicationExist` sites). -/
inductive Outcome where
  | ok (msgs : List String)
  | domainError (e : DomainErr) (msgs : List String)
  | errorReturn (e : DomainErr)
deriving DecidableEq

/-- Everything observable about one run of the handler: the outcome
delivered to the caller, the database state afterwards, the event trace,
the messages the producer sent on `msgChan`, and whether the transaction
committed. -/
structure HandlerResult where
  outcome : Outcome
  store : Store
  events : List Event
  sent : List Message
  committed : Bool
deriving DecidableEq

/-- The handler's apply-and-finish tail, entered once validation passed
(source lines 170–318): `application.Import` through `tx` establishes
the application record and the usages' pipeline identifiers for a new
application, nothing happens for an existing one (the `ImportUpdate`
call at line 172 is commented out); then the hook and poller loops
against the raw `db` handle (179–224), the notification loop through
`tx` (227–261), each loop returning a bare error on failure before the
channel is ever closed; then close the channel, drain it, render and
deduplicate (269–288), commit and return the rendered list with
`StatusOK` (300–318). -/
def applyAndFinish (render : Message → String) (st : Store)
    (app : Application) (exist : Bool) (vmsgs : List Message) :
    HandlerResult :=
  let ev0 := [Event.existsCheck app.name exist, Event.txBegin]
  let tx : Tx := if exist then ⟨[], []⟩ else ⟨[app.name], []⟩
  let usages :=
    if exist then app.pipelines else importedUsages st app.pipelines
  match applyPhase app usages ⟨st, vmsgs⟩ with
  | Except.error (e, s) =>
    ⟨Outcome.errorReturn e, s.store, ev0 ++ [Event.txRollback],
      s.sent, false⟩
  | Except.ok s1 =>
    match applyNotifications st app.name usages app.notifications with
    | Except.error e =>
      ⟨Outcome.errorReturn e, s1.store, ev0 ++ [Event.txRollback],
        s1.sent, false⟩
    | Except.ok rows =>
      let allMsg := consumerRun (channelReceives s1.sent)
      ⟨Outcome.ok (renderDedup render allMsg),
        { s1.store with
          applications := s1.store.applications ++ tx.newApplications,
          notifications := s1.store.notifications ++ rows },
        ev0 ++ [Event.txCommit], s1.sent, true⟩

/-- The handler from the existence probe onward (source lines 73–318;
the HTTP/parse/permission plumbing before line 73 is out of scope).
Sequence: probe `application.Exists` (73); `db.Begin()` (109) with a
deferred rollback (114); reject with `sdk.ErrApplicationExist` when the
application exists and `forceUpdate` is unset (118–120); run the
validation pass (122–168), whose last assignment is the final
`globalError`, skipping the apply phase and returning the rendered list
with the domain error's status when it is set (292–296); otherwise hand
over to `applyAndFinish`. -/
def runImport (render : Message → String) (st : Store)
    (app : Application) (forceUpdate : Bool) : HandlerResult :=
  let exist := applicationExists st app.name
  let ev0 := [Event.existsCheck app.name exist, Event.txBegin]
  if exist && !forceUpdate then
    ⟨Outcome.errorReturn DomainErr.applicationExist, st,
      ev0 ++ [Event.txRollback], [], false⟩
  else
    let checks := validation st app.name app.pipelines
    let vmsgs := checks.map Prod.fst
    match (checks.map Prod.snd).getLast? with
    | some e =>
      let allMsg := consumerRun (channelReceives vmsgs)
      ⟨Outcome.domainError e (renderDedup render allMsg), st,
        ev0 ++ [Event.txRollback], vmsgs, false⟩
    | none => applyAndFinish render st app exist vmsgs

/-- A cross-entity reference found in the descriptor, as classified by
the claims: a pipeline name, an application name, or an environment
name. -/
inductive Ref where
  | pipeline (name : String)
  | application (name : String)
  | environment (name : String)
deriving DecidableEq

/-- The references a single trigger subjects to a check, in the order the
validation pass encounters them: the destination application (only when
it differs from the imported application's name), the source
environment and the destination environment (only when they differ from
the default sentinel). -/
def triggerRefs (appName : String) (t : Trigger) : List Ref :=
  (if t.destApplicationName != appName then
    [Ref.application t.destApplicationName] else []) ++
  (if t.srcEnvironmentName != defaultEnvName then
    [Ref.environment t.srcEnvironmentName] else []) ++
  (if t.destEnvironmentName != defaultEnvName then
    [Ref.environment t.destEnvironmentName] else [])

/-- The references a single pipeline usage subjects to a check: its
pipeline first, then its triggers' references in order. -/
def usageRefs (appName : String) (u : PipelineUsage) : List Ref :=
  Ref.pipeline u.pipeline.name :: u.triggers.flatMap (triggerRefs appName)

/-- All checked references of a descriptor, in traversal order. -/
def descriptorRefs (app : Application) : List Ref :=
  app.pipelines.flatMap (usageRefs app.name)

/-- Whether a reference resolves against the project's catalogs. -/
def refResolves (st : Store) : Ref → Bool
  | Ref.pipeline n => pipelineExists st n
  | Ref.application n => applicationExists st n
  | Ref.environment n => environmentExists st n

/-- The descriptor's missing references, in traversal order. -/
def missingRefs (st : Store) (app : Application) : List Ref :=
  (descriptorRefs app).filter (fun r => !refResolves st r)

/-- The "not found" diagnostic corresponding to a missing reference. -/
def notFoundMessage : Ref → Message
  | Ref.pipeline n => Message.appImportPipelineNotFound n
  | Ref.application n => Message.appImportAppNotFound n
  | Ref.environment n => Message.appImportEnvNotFound n

/-- A concrete rendering function for closed evaluations: one English
text per message kind, empty for the zero message. -/
def sampleRender : Message → String
  | Message.appImportPipelineNotFound n => "Pipeline " ++ n ++ " not found"
  | Message.appImportAppNotFound n => "Application " ++ n ++ " not found"
  | Message.appImportEnvNotFound n => "Environment " ++ n ++ " not found"
  | Message.hookCreated r n => "Hook created on " ++ r ++ " for " ++ n
  | Message.pollerCreated r n => "Poller created on " ++ r ++ " for " ++ n
  | Message.zero => ""

/-- A concrete project state: pipelines `build` (id 5) and `legacy`
(id 7), an application `other`, an environment `prod` (id 3), and no
hook/poller/notification rows yet. -/
def sampleStore : Store :=
  ⟨[⟨"build", 5⟩, ⟨"legacy", 7⟩], ["other"], [⟨"prod", 3⟩], [], [], []⟩

/-- A descriptor for a new application `myapp` using the existing
pipeline `build`, with one hook on `build` and one poller on `ghost`, a
pipeline that exists neither in the project nor in the descriptor. -/
def appHookThenBadPoller : Application :=
  ⟨"myapp", "org/repo", [⟨⟨"build", 0⟩, []⟩], [⟨⟨"build", 0⟩⟩],
    [⟨⟨"ghost", 0⟩⟩], [], true⟩

/-- A descriptor for a new application `webapp` using the existing
pipeline `build`, with one hook on `build` and one poller on the
unknown pipeline `phantom`. -/
def appMsgsThenFailure : Application :=
  ⟨"webapp", "org/web", [⟨⟨"build", 0⟩, []⟩], [⟨⟨"build", 0⟩⟩],
    [⟨⟨"phantom", 0⟩⟩], [], true⟩

/-- A descriptor whose application name `other` already exists in
`sampleStore`. -/
def appAlreadyThere : Application :=
  ⟨"other", "", [], [], [], [], false⟩

/-- A descriptor for a new application `myapp2` with one usage of the
existing pipeline `build` and a hook on `legacy` — a pipeline that
pre-exists in the project but is not among the descriptor's usages. -/
def appHookOnLegacy : Application :=
  ⟨"myapp2", "org/repo2", [⟨⟨"build", 0⟩, []⟩], [⟨⟨"legacy", 0⟩⟩],
    [], [], true⟩

/-- C1: the claim "no entity created by a failed import is observable
afterward — the whole import persists either every entity or none" is
violated by the code: hooks and pollers are inserted through the raw
`db` handle rather than the scoped transaction, so when the poller on
`ghost` hard-stops the apply phase, the transaction rolls back (the
application record is gone) but the hook row written just before
remains observable.  Evaluated at the failing input. -/
theorem C1_failed_apply_leaves_hook_row :
    (runImport sampleRender sampleStore appHookThenBadPoller false).outcome =
      Outcome.errorReturn DomainErr.pipelineNotFound ∧
    (runImport sampleRender sampleStore appHookThenBadPoller false).committed =
      false ∧
    (runImport sampleRender sampleStore appHookThenBadPoller false).store.applications =
      sampleStore.applications ∧
    (runImport sampleRender sampleStore appHookThenBadPoller false).store.hooks =
      [⟨"myapp", 5, "org/repo"⟩] := by
  decide

/-- C2, counterexample: an apply-phase failure does not carry the
accumulated diagnostic list.  On this input the producer has already
sent a `HookCreated` message and then a `PipelineNotFound` message for
the poller, yet the handler returns a bare error (the channel is never
closed, nothing is rendered, `WriteJSON` is never reached). -/
theorem C2_apply_failure_drops_diagnostics :
    (runImport sampleRender sampleStore appMsgsThenFailure false).outcome =
      Outcome.errorReturn DomainErr.pipelineNotFound ∧
    (runImport sampleRender sampleStore appMsgsThenFailure false).sent =
      [Message.hookCreated "org/web" "build",
       Message.appImportPipelineNotFound "phantom"] := by
  decide

/-- C3, counterexample: importing a descriptor whose application name
already exists, with `forceUpdate` unset, does open a transaction:
`db.Begin()` (source line 109) runs before the `AlreadyExists`
rejection (line 118), so the event trace contains `txBegin` (followed
by the deferred rollback). -/
theorem C3_already_exists_opens_transaction :
    (runImport sampleRender sampleStore appAlreadyThere false).outcome =
      Outcome.errorReturn DomainErr.applicationExist ∧
    (runImport sampleRender sampleStore appAlreadyThere false).events =
      [Event.existsCheck "other" true, Event.txBegin, Event.txRollback] := by
  decide

/-- C5, counterexample: a hook whose pipeline `legacy` pre-exists in the
target project still hard-stops the apply with pipeline-not-found,
because the resolution loop (source lines 180–185) scans only the
descriptor's pipeline usages, not the project's pipelines. -/
theorem C5_preexisting_pipeline_still_fails :
    pipelineExists sampleStore "legacy" = true ∧
    (runImport sampleRender sampleStore appHookOnLegacy false).outcome =
      Outcome.errorReturn DomainErr.pipelineNotFound ∧
    (runImport sampleRender sampleStore appHookOnLegacy false).store.hooks =
      [] := by
  decide

/-- First-occurrence deduplication of a list of strings: keep each
string's first occurrence, erase the later ones.  This is the reference
form the render-time loop is compared against. -/
def eraseDupFirst : List String → List String
  | [] => []
  | x :: xs => x :: eraseDupFirst (xs.filter (fun y => y != x))
termination_by l => l.length
decreasing_by
  simp only [List.length_cons]
  exact Nat.lt_succ_of_le (List.length_filter_le _ _)

theorem eraseDupFirst_cons (x : String) (xs : List String) :
    eraseDupFirst (x :: xs) = x :: eraseDupFirst (xs.filter (fun y => y != x)) := by
  rw [eraseDupFirst.eq_def]

theorem scontains_eq_decide (l : List String) (a : String) :
    l.contains a = decide (a ∈ l) := by
  by_cases h : a ∈ l
  · simp [h, List.elem_iff.mpr h]
  · simp only [h, decide_False]
    by_cases hc : l.contains a
    · exact absurd (List.elem_iff.mp hc) h
    · simpa using hc

theorem foldl_dedupStep_eq (l : List String) : ∀ acc,
    l.foldl dedupStep acc =
      acc ++ eraseDupFirst (l.filter (fun s => s != "" && !acc.contains s)) := by
  induction l with
  | nil => intro acc; simp [eraseDupFirst]
  | cons x xs ih =>
    intro acc
    by_cases hx : x = ""
    · subst hx
      have h1 : dedupStep acc "" = acc := by simp [dedupStep]
      simp only [List.foldl_cons, h1, List.filter_cons, bne_self_eq_false,
        Bool.false_and, if_neg (by simp : ¬(false = true))]
      exact ih acc
    · by_cases hc : x ∈ acc
      · have h1 : dedupStep acc x = acc := by
          simp [dedupStep, scontains_eq_decide, hc]
        have hcond : (x != "" && !acc.contains x) = false := by
          simp [scontains_eq_decide, hc]
        simp only [List.foldl_cons, h1, List.filter_cons, hcond,
          if_neg (by simp : ¬(false = true))]
        exact ih acc
      · have h1 : dedupStep acc x = acc ++ [x] := by
          simp [dedupStep, scontains_eq_decide, hc, hx]
        have hcond : (x != "" && !acc.contains x) = true := by
          simp [scontains_eq_decide, hc, hx]
        simp only [List.foldl_cons, h1, List.filter_cons, hcond, if_true]
        rw [ih (acc ++ [x])]
        rw [eraseDupFirst_cons]
        have hfilters : xs.filter (fun s => s != "" && !(acc ++ [x]).contains s) =
            (xs.filter (fun s => s != "" && !acc.contains s)).filter
              (fun y => y != x) := by
          rw [List.filter_filter]
          apply List.filter_congr
          intro a _
          simp only [scontains_eq_decide, List.mem_append, List.mem_singleton,
            bne]
          by_cases h1 : a = "" <;> by_cases h2 : a = x <;>
            by_cases h3 : a ∈ acc <;> simp [h1, h2, h3]
        rw [hfilters]
        simp

theorem mem_of_mem_eraseDupFirst : ∀ (l : List String) (a : String),
    a ∈ eraseDupFirst l → a ∈ l := by
  intro l
  induction l using eraseDupFirst.induct with
  | case1 => intro a h; simp [eraseDupFirst] at h
  | case2 x xs ih =>
    intro a h
    rw [eraseDupFirst_cons] at h
    rcases List.mem_cons.mp h with h1 | h1
    · simp [h1]
    · exact List.mem_cons_of_mem _ (List.mem_of_mem_filter (ih a h1))

theorem nodup_eraseDupFirst : ∀ (l : List String), (eraseDupFirst l).Nodup := by
  intro l
  induction l using eraseDupFirst.induct with
  | case1 => simp [eraseDupFirst]
  | case2 x xs ih =>
    rw [eraseDupFirst_cons]
    refine List.nodup_cons.mpr ⟨?_, ih⟩
    intro hmem
    have := List.of_mem_filter (mem_of_mem_eraseDupFirst _ _ hmem)
    simp at this

theorem renderDedup_eq_foldl (render : Message → String) (msgs : List Message) :
    renderDedup render msgs = (msgs.map render).foldl dedupStep [] := by
  rw [renderDedup, List.foldl_map]

theorem renderDedup_spec (render : Message → String) (msgs : List Message) :
    renderDedup render msgs =
      eraseDupFirst ((msgs.map render).filter (fun s => s != "")) := by
  rw [renderDedup_eq_foldl, foldl_dedupStep_eq]
  simp only [List.nil_append]
  congr 1
  apply List.filter_congr
  intro a _
  simp [List.contains]

theorem mem_dedupStep {s x : String} {acc : List String} (h : s ∈ acc) :
    s ∈ dedupStep acc x := by
  unfold dedupStep
  split
  · exact h
  · split
    · exact h
    · exact List.mem_append_left _ h

theorem mem_foldl_dedupStep {s : String} :
    ∀ (l : List String) (acc : List String), s ∈ acc →
      s ∈ l.foldl dedupStep acc := by
  intro l
  induction l with
  | nil => intro acc h; simpa using h
  | cons x xs ih => intro acc h; exact ih _ (mem_dedupStep h)

theorem self_mem_dedupStep {x : String} (acc : List String) (hx : x ≠ "") :
    x ∈ dedupStep acc x := by
  unfold dedupStep
  split
  · rename_i h; exact absurd (by simpa using h) hx
  · split
    · rename_i h; exact List.elem_iff.mp h
    · exact List.mem_append_right _ (by simp)

theorem dedupStep_eq_self {z : String} {acc : List String}
    (h : z = "" ∨ z ∈ acc) : dedupStep acc z = acc := by
  unfold dedupStep
  rcases h with h | h
  · simp [h]
  · simp [scontains_eq_decide, h]

theorem dedupStep_ne_self {z : String} {acc : List String}
    (hz : z ≠ "") (hm : z ∉ acc) : dedupStep acc z ≠ acc := by
  have hstep : dedupStep acc z = acc ++ [z] := by
    simp [dedupStep, scontains_eq_decide, hz, hm]
  rw [hstep]
  intro h
  have := congrArg List.length h
  simp at this

theorem renderDedup_duplicate (render : Message → String)
    (l1 l2 l3 : List Message) (m : Message) :
    renderDedup render (l1 ++ m :: (l2 ++ m :: l3)) =
      renderDedup render (l1 ++ m :: (l2 ++ l3)) := by
  rw [renderDedup_eq_foldl, renderDedup_eq_foldl]
  simp only [List.map_append, List.map_cons, List.foldl_append, List.foldl_cons]
  congr 1
  apply dedupStep_eq_self
  by_cases hz : render m = ""
  · exact Or.inl hz
  · exact Or.inr (mem_foldl_dedupStep _ _ (self_mem_dedupStep _ hz))

theorem foldl_dedup_snoc_iff (z : String) (l : List String) :
    (l ++ [z]).foldl dedupStep [] = l.foldl dedupStep [] ↔
      (z = "" ∨ z ∈ l.foldl dedupStep []) := by
  simp only [List.foldl_append, List.foldl_cons, List.foldl_nil]
  constructor
  · intro h
    by_contra hcon
    push_neg at hcon
    exact dedupStep_ne_self hcon.1 hcon.2 h
  · exact dedupStep_eq_self

theorem renderDedup_zero_iff (render : Message → String) (sent : List Message) :
    renderDedup render (sent ++ [Message.zero]) = renderDedup render sent ↔
      (render Message.zero = "" ∨
        render Message.zero ∈ renderDedup render sent) := by
  have h1 := renderDedup_eq_foldl render (sent ++ [Message.zero])
  have h2 := renderDedup_eq_foldl render sent
  rw [h1, h2, List.map_append, List.map_cons, List.map_nil]
  exact foldl_dedup_snoc_iff (render Message.zero) (sent.map render)

theorem consumerRun_channelReceives (sent : List Message) :
    consumerRun (channelReceives sent) = sent ++ [Message.zero] := by
  induction sent with
  | nil => rfl
  | cons m rest ih =>
    simp only [channelReceives, List.map_cons, List.cons_append] at ih ⊢
    simp only [consumerRun, if_true]
    exact congrArg (m :: ·) ih

/-- C7: for every sequence of emitted messages, the rendered output list
is exactly the first-occurrence deduplication of the nonempty rendered
texts (so each text appears at most once, in first-occurrence order,
and messages rendering to the empty string are dropped); the output has
no duplicates; and emitting the same message twice yields the same
output as emitting it once at its first position. -/
theorem C7_render_dedup_first_occurrence (render : Message → String) :
    (∀ msgs : List Message,
      renderDedup render msgs =
        eraseDupFirst ((msgs.map render).filter (fun s => s != "")) ∧
      (renderDedup render msgs).Nodup) ∧
    (∀ (l1 l2 l3 : List Message) (m : Message),
      renderDedup render (l1 ++ m :: (l2 ++ m :: l3)) =
        renderDedup render (l1 ++ m :: (l2 ++ l3))) :=
  ⟨fun msgs =>
    ⟨renderDedup_spec render msgs,
     by rw [renderDedup_spec]; exact nodup_eraseDupFirst _⟩,
   renderDedup_duplicate render⟩

/-- C10: closing the channel after `k` sent messages leaves the
consumer's buffer holding exactly `k + 1` elements — the `k` messages
in emission order followed by one zero-value message, appended because
the loop stores the received value before testing the channel-closed
flag — and the rendered output equals the deduplication of the `k` sent
messages alone iff the zero message renders to the empty string or to a
text already present in that output. -/
theorem C10_consumer_appends_zero_message (render : Message → String)
    (sent : List Message) :
    consumerRun (channelReceives sent) = sent ++ [Message.zero] ∧
    (consumerRun (channelReceives sent)).length = sent.length + 1 ∧
    (renderDedup render (consumerRun (channelReceives sent)) =
        renderDedup render sent ↔
      (render Message.zero = "" ∨
        render Message.zero ∈ renderDedup render sent)) := by
  refine ⟨consumerRun_channelReceives sent, ?_, ?_⟩
  · rw [consumerRun_channelReceives]; simp
  · rw [consumerRun_channelReceives]
    exact renderDedup_zero_iff render sent

theorem appPiece (c : Bool) (e : DomainErr) (n : String) (st : Store) :
    ((if c && !applicationExists st n then
        [(Message.appImportAppNotFound n, e)] else []).map Prod.fst) =
    ((if c then [Ref.application n] else []).filter
        (fun x => !refResolves st x)).map notFoundMessage := by
  cases c <;> cases h : applicationExists st n <;>
    simp [refResolves, notFoundMessage, h]

theorem envPiece (c : Bool) (e : DomainErr) (n : String) (st : Store) :
    ((if c && !environmentExists st n then
        [(Message.appImportEnvNotFound n, e)] else []).map Prod.fst) =
    ((if c then [Ref.environment n] else []).filter
        (fun x => !refResolves st x)).map notFoundMessage := by
  cases c <;> cases h : environmentExists st n <;>
    simp [refResolves, notFoundMessage, h]

theorem checkTrigger_eq (st : Store) (appName : String) (t : Trigger) :
    (checkTrigger st appName t).map Prod.fst =
      ((triggerRefs appName t).filter (fun r => !refResolves st r)).map
        notFoundMessage := by
  unfold checkTrigger triggerRefs
  simp only [List.map_append, List.filter_append]
  rw [appPiece, envPiece, envPiece]

theorem triggers_eq (st : Store) (appName : String) (ts : List Trigger) :
    ((ts.flatMap (checkTrigger st appName)).map Prod.fst) =
      ((ts.flatMap (triggerRefs appName)).filter
        (fun r => !refResolves st r)).map notFoundMessage := by
  induction ts with
  | nil => rfl
  | cons t ts ih =>
    show ((checkTrigger st appName t ++
      ts.flatMap (checkTrigger st appName)).map Prod.fst) = _
    rw [show (t :: ts).flatMap (triggerRefs appName) =
      triggerRefs appName t ++ ts.flatMap (triggerRefs appName) from rfl]
    simp only [List.map_append, List.filter_append]
    rw [checkTrigger_eq, ih]

theorem checkUsage_eq (st : Store) (appName : String) (u : PipelineUsage) :
    (checkUsage st appName u).map Prod.fst =
      ((usageRefs appName u).filter (fun r => !refResolves st r)).map
        notFoundMessage := by
  by_cases hp : pipelineExists st u.pipeline.name <;>
    simp [checkUsage, usageRefs, refResolves, notFoundMessage, hp,
      List.filter_cons, triggers_eq st appName u.triggers]

theorem validation_eq (st : Store) (appName : String)
    (us : List PipelineUsage) :
    (validation st appName us).map Prod.fst =
      ((us.flatMap (usageRefs appName)).filter
        (fun r => !refResolves st r)).map notFoundMessage := by
  induction us with
  | nil => rfl
  | cons u us ih =>
    show ((checkUsage st appName u ++
      us.flatMap (checkUsage st appName)).map Prod.fst) = _
    rw [show (u :: us).flatMap (usageRefs appName) =
      usageRefs appName u ++ us.flatMap (usageRefs appName) from rfl]
    simp only [List.map_append, List.filter_append]
    rw [checkUsage_eq,
      show us.flatMap (checkUsage st appName) = validation st appName us
        from rfl,
      ih]

/-- The hook row `hook.CreateHook` writes for a hook once its pipeline
is resolved. -/
def hookRow (app : Application) (usages : List PipelineUsage) (h : Hook) :
    HookRec :=
  ⟨app.name, (resolveAgainstUsages usages h.pipeline).id,
    app.repositoryFullname⟩

/-- The `HookCreated` message sent for a successfully inserted hook. -/
def hookMsg (app : Application) (usages : List PipelineUsage) (h : Hook) :
    Message :=
  Message.hookCreated app.repositoryFullname
    (resolveAgainstUsages usages h.pipeline).name

/-- The poller row `poller.Insert` writes for a poller once its pipeline
is resolved. -/
def pollerRow (app : Application) (usages : List PipelineUsage)
    (h : Poller) : PollerRec :=
  ⟨app.name, (resolveAgainstUsages usages h.pipeline).id⟩

/-- The `PollerCreated` message sent for a successfully inserted
poller. -/
def pollerMsg (app : Application) (usages : List PipelineUsage)
    (h : Poller) : Message :=
  Message.pollerCreated app.repositoryFullname
    (resolveAgainstUsages usages h.pipeline).name

theorem applyHooks_ok (app : Application) (usages : List PipelineUsage) :
    ∀ (hs : List Hook) (s : ApplyState),
      (∀ h ∈ hs, (resolveAgainstUsages usages h.pipeline).id ≠ 0) →
      applyHooks app usages s hs = Except.ok
        ⟨{ s.store with hooks := s.store.hooks ++ hs.map (hookRow app usages) },
          s.sent ++ hs.map (hookMsg app usages)⟩ := by
  intro hs
  induction hs with
  | nil => intro s _; simp [applyHooks]
  | cons h hs ih =>
    intro s hres
    have hid : ((resolveAgainstUsages usages h.pipeline).id == 0) = false := by
      simp [hres h (by simp)]
    simp only [applyHooks, hid, Bool.false_eq_true, if_false]
    rw [ih _ (fun h' hm => hres h' (List.mem_cons_of_mem _ hm))]
    simp [hookRow, hookMsg, List.append_assoc]

theorem applyHooks_cons_resolved (app : Application)
    (usages : List PipelineUsage) (s : ApplyState) (h : Hook)
    (rest : List Hook)
    (hid : ((resolveAgainstUsages usages h.pipeline).id == 0) = false) :
    applyHooks app usages s (h :: rest) =
      applyHooks app usages
        ⟨{ s.store with hooks := s.store.hooks ++
            [⟨app.name, (resolveAgainstUsages usages h.pipeline).id,
              app.repositoryFullname⟩] },
          s.sent ++ [Message.hookCreated app.repositoryFullname
            (resolveAgainstUsages usages h.pipeline).name]⟩ rest := by
  simp only [applyHooks, hid, Bool.false_eq_true, if_false]

theorem applyHooks_err (app : Application) (usages : List PipelineUsage)
    (h : Hook) (hs2 : List Hook) :
    ∀ (hs1 : List Hook) (s : ApplyState),
      (∀ h' ∈ hs1, (resolveAgainstUsages usages h'.pipeline).id ≠ 0) →
      (resolveAgainstUsages usages h.pipeline).id = 0 →
      applyHooks app usages s (hs1 ++ h :: hs2) = Except.error
        (DomainErr.pipelineNotFound,
          ⟨{ s.store with hooks := s.store.hooks ++ hs1.map (hookRow app usages) },
            s.sent ++ hs1.map (hookMsg app usages) ++
              [Message.appImportPipelineNotFound
                (resolveAgainstUsages usages h.pipeline).name]⟩) := by
  intro hs1
  induction hs1 with
  | nil =>
    intro s _ hid
    simp only [List.nil_append, applyHooks, hid]
    simp
  | cons h1 hs1 ih =>
    intro s hres hid
    have hid1 : ((resolveAgainstUsages usages h1.pipeline).id == 0) = false := by
      simp [hres h1 (by simp)]
    rw [List.cons_append, applyHooks_cons_resolved app usages s h1 _ hid1]
    rw [ih _ (fun h' hm => hres h' (List.mem_cons_of_mem _ hm)) hid]
    simp [hookRow, hookMsg, List.append_assoc]

theorem applyPollers_ok (app : Application) (usages : List PipelineUsage) :
    ∀ (hs : List Poller) (s : ApplyState),
      (∀ h ∈ hs, (resolveAgainstUsages usages h.pipeline).id ≠ 0) →
      applyPollers app usages s hs = Except.ok
        ⟨{ s.store with pollers := s.store.pollers ++ hs.map (pollerRow app usages) },
          s.sent ++ hs.map (pollerMsg app usages)⟩ := by
  intro hs
  induction hs with
  | nil => intro s _; simp [applyPollers]
  | cons h hs ih =>
    intro s hres
    have hid : ((resolveAgainstUsages usages h.pipeline).id == 0) = false := by
      simp [hres h (by simp)]
    simp only [applyPollers, hid, Bool.false_eq_true, if_false]
    rw [ih _ (fun h' hm => hres h' (List.mem_cons_of_mem _ hm))]
    simp [pollerRow, pollerMsg, List.append_assoc]

theorem applyPollers_cons_resolved (app : Application)
    (usages : List PipelineUsage) (s : ApplyState) (h : Poller)
    (rest : List Poller)
    (hid : ((resolveAgainstUsages usages h.pipeline).id == 0) = false) :
    applyPollers app usages s (h :: rest) =
      applyPollers app usages
        ⟨{ s.store with pollers := s.store.pollers ++
            [⟨app.name, (resolveAgainstUsages usages h.pipeline).id⟩] },
          s.sent ++ [Message.pollerCreated app.repositoryFullname
            (resolveAgainstUsages usages h.pipeline).name]⟩ rest := by
  simp only [applyPollers, hid, Bool.false_eq_true, if_false]

theorem applyPollers_err (app : Application) (usages : List PipelineUsage)
    (h : Poller) (hs2 : List Poller) :
    ∀ (hs1 : List Poller) (s : ApplyState),
      (∀ h' ∈ hs1, (resolveAgainstUsages usages h'.pipeline).id ≠ 0) →
      (resolveAgainstUsages usages h.pipeline).id = 0 →
      applyPollers app usages s (hs1 ++ h :: hs2) = Except.error
        (DomainErr.pipelineNotFound,
          ⟨{ s.store with pollers := s.store.pollers ++ hs1.map (pollerRow app usages) },
            s.sent ++ hs1.map (pollerMsg app usages) ++
              [Message.appImportPipelineNotFound
                (resolveAgainstUsages usages h.pipeline).name]⟩) := by
  intro hs1
  induction hs1 with
  | nil =>
    intro s _ hid
    simp only [List.nil_append, applyPollers, hid]
    simp
  | cons h1 hs1 ih =>
    intro s hres hid
    have hid1 : ((resolveAgainstUsages usages h1.pipeline).id == 0) = false := by
      simp [hres h1 (by simp)]
    rw [List.cons_append, applyPollers_cons_resolved app usages s h1 _ hid1]
    rw [ih _ (fun h' hm => hres h' (List.mem_cons_of_mem _ hm)) hid]
    simp [pollerRow, pollerMsg, List.append_assoc]

theorem valid_soft (st : Store) (appName : String) (u : PipelineUsage)
    (rest : List PipelineUsage)
    (hp : pipelineExists st u.pipeline.name = false) :
    validation st appName (u :: rest) =
      (Message.appImportPipelineNotFound u.pipeline.name,
        DomainErr.pipelineNotFound) ::
      (u.triggers.flatMap (checkTrigger st appName) ++
        validation st appName rest) := by
  show checkUsage st appName u ++ validation st appName rest = _
  rw [checkUsage]
  simp [hp]

theorem runImport_validation_reject (render : Message → String) (st : Store)
    (app : Application) (fu : Bool)
    (hguard : (applicationExists st app.name && !fu) = false)
    (e : DomainErr)
    (hlast : ((validation st app.name app.pipelines).map Prod.snd).getLast? =
      some e) :
    runImport render st app fu =
      ⟨Outcome.domainError e (renderDedup render (consumerRun (channelReceives
          ((validation st app.name app.pipelines).map Prod.fst)))),
        st,
        [Event.existsCheck app.name (applicationExists st app.name),
          Event.txBegin, Event.txRollback],
        (validation st app.name app.pipelines).map Prod.fst, false⟩ := by
  unfold runImport
  simp only [hguard, Bool.false_eq_true, if_false, hlast]
  rfl

theorem runImport_already_exists (render : Message → String) (st : Store)
    (app : Application) (hex : applicationExists st app.name = true) :
    runImport render st app false =
      ⟨Outcome.errorReturn DomainErr.applicationExist, st,
        [Event.existsCheck app.name true, Event.txBegin, Event.txRollback],
        [], false⟩ := by
  unfold runImport
  rw [hex]
  simp

theorem applyHooks_apps_frame (app : Application)
    (usages : List PipelineUsage) :
    ∀ (hs : List Hook) (s : ApplyState),
      (∀ s', applyHooks app usages s hs = Except.ok s' →
        s'.store.applications = s.store.applications ∧
        s'.store.pollers = s.store.pollers ∧
        s'.store.notifications = s.store.notifications) ∧
      (∀ e s', applyHooks app usages s hs = Except.error (e, s') →
        s'.store.applications = s.store.applications ∧
        s'.store.pollers = s.store.pollers ∧
        s'.store.notifications = s.store.notifications) := by
  intro hs
  induction hs with
  | nil =>
    intro s
    constructor
    · intro s' h
      injection h with h
      subst h
      exact ⟨rfl, rfl, rfl⟩
    · intro e s' h
      exact absurd h (by simp [applyHooks])
  | cons h hs ih =>
    intro s
    by_cases hid : ((resolveAgainstUsages usages h.pipeline).id == 0) = true
    · constructor
      · intro s' hh
        rw [show applyHooks app usages s (h :: hs) = Except.error
          (DomainErr.pipelineNotFound, { s with sent := s.sent ++
            [Message.appImportPipelineNotFound
              (resolveAgainstUsages usages h.pipeline).name] })
          from by simp only [applyHooks, hid, if_true]] at hh
        exact absurd hh (by simp)
      · intro e s' hh
        rw [show applyHooks app usages s (h :: hs) = Except.error
          (DomainErr.pipelineNotFound, { s with sent := s.sent ++
            [Message.appImportPipelineNotFound
              (resolveAgainstUsages usages h.pipeline).name] })
          from by simp only [applyHooks, hid, if_true]] at hh
        injection hh with hh
        injection hh with hh1 hh2
        subst hh2
        exact ⟨rfl, rfl, rfl⟩
    · have hid' : ((resolveAgainstUsages usages h.pipeline).id == 0) = false := by
        simpa using hid
      constructor
      · intro s' hh
        rw [applyHooks_cons_resolved app usages s h hs hid'] at hh
        obtain ⟨h1, h2, h3⟩ := (ih _).1 s' hh
        exact ⟨h1, h2, h3⟩
      · intro e s' hh
        rw [applyHooks_cons_resolved app usages s h hs hid'] at hh
        obtain ⟨h1, h2, h3⟩ := (ih _).2 e s' hh
        exact ⟨h1, h2, h3⟩

theorem applyPollers_pollfree_frame (app : Application)
    (usages : List PipelineUsage) :
    ∀ (hs : List Poller) (s : ApplyState),
      (∀ s', applyPollers app usages s hs = Except.ok s' →
        s'.store.applications = s.store.applications ∧
        s'.store.hooks = s.store.hooks ∧
        s'.store.notifications = s.store.notifications) ∧
      (∀ e s', applyPollers app usages s hs = Except.error (e, s') →
        s'.store.applications = s.store.applications ∧
        s'.store.hooks = s.store.hooks ∧
        s'.store.notifications = s.store.notifications) := by
  intro hs
  induction hs with
  | nil =>
    intro s
    constructor
    · intro s' h
      injection h with h
      subst h
      exact ⟨rfl, rfl, rfl⟩
    · intro e s' h
      exact absurd h (by simp [applyPollers])
  | cons h hs ih =>
    intro s
    by_cases hid : ((resolveAgainstUsages usages h.pipeline).id == 0) = true
    · constructor
      · intro s' hh
        rw [show applyPollers app usages s (h :: hs) = Except.error
          (DomainErr.pipelineNotFound, { s with sent := s.sent ++
            [Message.appImportPipelineNotFound
              (resolveAgainstUsages usages h.pipeline).name] })
          from by simp only [applyPollers, hid, if_true]] at hh
        exact absurd hh (by simp)
      · intro e s' hh
        rw [show applyPollers app usages s (h :: hs) = Except.error
          (DomainErr.pipelineNotFound, { s with sent := s.sent ++
            [Message.appImportPipelineNotFound
              (resolveAgainstUsages usages h.pipeline).name] })
          from by simp only [applyPollers, hid, if_true]] at hh
        injection hh with hh
        injection hh with hh1 hh2
        subst hh2
        exact ⟨rfl, rfl, rfl⟩
    · have hid' : ((resolveAgainstUsages usages h.pipeline).id == 0) = false := by
        simpa using hid
      constructor
      · intro s' hh
        rw [applyPollers_cons_resolved app usages s h hs hid'] at hh
        obtain ⟨h1, h2, h3⟩ := (ih _).1 s' hh
        exact ⟨h1, h2, h3⟩
      · intro e s' hh
        rw [applyPollers_cons_resolved app usages s h hs hid'] at hh
        obtain ⟨h1, h2, h3⟩ := (ih _).2 e s' hh
        exact ⟨h1, h2, h3⟩

theorem applyPhase_apps_frame (app : Application)
    (usages : List PipelineUsage) (s : ApplyState) :
    (∀ s', applyPhase app usages s = Except.ok s' →
      s'.store.applications = s.store.applications ∧
      s'.store.notifications = s.store.notifications) ∧
    (∀ e s', applyPhase app usages s = Except.error (e, s') →
      s'.store.applications = s.store.applications ∧
      s'.store.notifications = s.store.notifications) := by
  unfold applyPhase
  by_cases hrm : app.hasRepositoriesManager = true
  · rw [hrm]
    simp only [if_true]
    constructor
    · intro s' hh
      rcases hhook : applyHooks app usages s app.hooks with e1 | s1
      · rw [hhook] at hh; exact absurd hh (by simp)
      · rw [hhook] at hh
        have h1 := (applyHooks_apps_frame app usages app.hooks s).1 s1 hhook
        have h2 := (applyPollers_pollfree_frame app usages
          app.repositoryPollers s1).1 s' hh
        exact ⟨h2.1.trans h1.1, h2.2.2.trans h1.2.2⟩
    · intro e s' hh
      rcases hhook : applyHooks app usages s app.hooks with e1 | s1
      · rw [hhook] at hh
        rcases e1 with ⟨e0, s0⟩
        injection hh with hh
        injection hh with hh1 hh2
        subst hh2
        have h1 := (applyHooks_apps_frame app usages app.hooks s).2 e0 s0 hhook
        exact ⟨h1.1, h1.2.2⟩
      · rw [hhook] at hh
        have h1 := (applyHooks_apps_frame app usages app.hooks s).1 s1 hhook
        have h2 := (applyPollers_pollfree_frame app usages
          app.repositoryPollers s1).2 e s' hh
        exact ⟨h2.1.trans h1.1, h2.2.2.trans h1.2.2⟩
  · have hrm' : app.hasRepositoriesManager = false := by simpa using hrm
    rw [hrm']
    simp only [Bool.false_eq_true, if_false]
    constructor
    · intro s' hh
      injection hh with hh
      subst hh
      exact ⟨rfl, rfl⟩
    · intro e s' hh
      exact absurd hh (by simp)

theorem runImport_guard_true (render : Message → String) (st : Store)
    (app : Application) (fu : Bool)
    (hg : (applicationExists st app.name && !fu) = true) :
    runImport render st app fu =
      ⟨Outcome.errorReturn DomainErr.applicationExist, st,
        [Event.existsCheck app.name (applicationExists st app.name),
          Event.txBegin, Event.txRollback], [], false⟩ := by
  simp only [runImport, hg, if_true]
  rfl

theorem runImport_apply_eq (render : Message → String) (st : Store)
    (app : Application) (fu : Bool)
    (hg : (applicationExists st app.name && !fu) = false)
    (hL : ((validation st app.name app.pipelines).map Prod.snd).getLast? =
      none) :
    runImport render st app fu =
      applyAndFinish render st app (applicationExists st app.name)
        ((validation st app.name app.pipelines).map Prod.fst) := by
  simp only [runImport, hg, Bool.false_eq_true, if_false, hL]

theorem applyAndFinish_phase_err (render : Message → String) (st : Store)
    (app : Application) (exist : Bool) (vmsgs : List Message)
    (e : DomainErr) (s : ApplyState)
    (hHP : applyPhase app
      (if exist then app.pipelines else importedUsages st app.pipelines)
      ⟨st, vmsgs⟩ = Except.error (e, s)) :
    applyAndFinish render st app exist vmsgs =
      ⟨Outcome.errorReturn e, s.store,
        [Event.existsCheck app.name exist, Event.txBegin,
          Event.txRollback], s.sent, false⟩ := by
  simp only [applyAndFinish, hHP]
  rfl

theorem applyAndFinish_notif_err (render : Message → String) (st : Store)
    (app : Application) (exist : Bool) (vmsgs : List Message)
    (s1 : ApplyState) (e : DomainErr)
    (hHP : applyPhase app
      (if exist then app.pipelines else importedUsages st app.pipelines)
      ⟨st, vmsgs⟩ = Except.ok s1)
    (hN : applyNotifications st app.name
      (if exist then app.pipelines else importedUsages st app.pipelines)
      app.notifications = Except.error e) :
    applyAndFinish render st app exist vmsgs =
      ⟨Outcome.errorReturn e, s1.store,
        [Event.existsCheck app.name exist, Event.txBegin,
          Event.txRollback], s1.sent, false⟩ := by
  simp only [applyAndFinish, hHP, hN]
  rfl

theorem applyAndFinish_success (render : Message → String) (st : Store)
    (app : Application) (exist : Bool) (vmsgs : List Message)
    (s1 : ApplyState) (rows : List NotifRec)
    (hHP : applyPhase app
      (if exist then app.pipelines else importedUsages st app.pipelines)
      ⟨st, vmsgs⟩ = Except.ok s1)
    (hN : applyNotifications st app.name
      (if exist then app.pipelines else importedUsages st app.pipelines)
      app.notifications = Except.ok rows) :
    applyAndFinish render st app exist vmsgs =
      ⟨Outcome.ok (renderDedup render (consumerRun (channelReceives s1.sent))),
        { s1.store with
          applications := s1.store.applications ++
            (if exist then (⟨[], []⟩ : Tx) else ⟨[app.name], []⟩).newApplications,
          notifications := s1.store.notifications ++ rows },
        [Event.existsCheck app.name exist, Event.txBegin, Event.txCommit],
        s1.sent, true⟩ := by
  simp only [applyAndFinish, hHP, hN]
  rfl

theorem runImport_msgs (render : Message → String) (st : Store)
    (app : Application) (fu : Bool) :
    (∀ msgs, (runImport render st app fu).outcome = Outcome.ok msgs →
      msgs = renderDedup render (consumerRun (channelReceives
        (runImport render st app fu).sent))) ∧
    (∀ e msgs, (runImport render st app fu).outcome =
        Outcome.domainError e msgs →
      msgs = renderDedup render (consumerRun (channelReceives
        (runImport render st app fu).sent))) := by
  by_cases hg : (applicationExists st app.name && !fu) = true
  · rw [runImport_guard_true render st app fu hg]
    constructor
    · intro msgs hmsg; exact absurd hmsg (by simp)
    · intro e msgs hmsg; exact absurd hmsg (by simp)
  · have hg' : (applicationExists st app.name && !fu) = false := by
      simpa using hg
    rcases hL : ((validation st app.name app.pipelines).map Prod.snd).getLast?
      with _ | e0
    · rw [runImport_apply_eq render st app fu hg' hL]
      rcases hHP : applyPhase app
          (if applicationExists st app.name then app.pipelines
            else importedUsages st app.pipelines)
          ⟨st, (validation st app.name app.pipelines).map Prod.fst⟩
        with ⟨e1, s⟩ | s1
      · rw [applyAndFinish_phase_err render st app _ _ e1 s hHP]
        constructor
        · intro msgs hmsg; exact absurd hmsg (by simp)
        · intro e msgs hmsg; exact absurd hmsg (by simp)
      · rcases hN : applyNotifications st app.name
            (if applicationExists st app.name then app.pipelines
              else importedUsages st app.pipelines)
            app.notifications
          with e1 | rows
        · rw [applyAndFinish_notif_err render st app _ _ s1 e1 hHP hN]
          constructor
          · intro msgs hmsg; exact absurd hmsg (by simp)
          · intro e msgs hmsg; exact absurd hmsg (by simp)
        · rw [applyAndFinish_success render st app _ _ s1 rows hHP hN]
          constructor
          · intro msgs hmsg
            injection hmsg with h1
            exact h1.symm
          · intro e msgs hmsg; exact absurd hmsg (by simp)
    · rw [runImport_validation_reject render st app fu hg' e0 hL]
      constructor
      · intro msgs hmsg; exact absurd hmsg (by simp)
      · intro e msgs hmsg
        injection hmsg with h1 h2
        exact h2.symm

theorem runImport_exist_apps_frame (render : Message → String) (st : Store)
    (app : Application)
    (hex : applicationExists st app.name = true) :
    (runImport render st app true).store.applications = st.applications := by
  have hg' : (applicationExists st app.name && !true) = false := by
    simp
  rcases hL : ((validation st app.name app.pipelines).map Prod.snd).getLast?
    with _ | e0
  · rw [runImport_apply_eq render st app true hg' hL]
    rcases hHP : applyPhase app
        (if applicationExists st app.name then app.pipelines
          else importedUsages st app.pipelines)
        ⟨st, (validation st app.name app.pipelines).map Prod.fst⟩
      with ⟨e1, s⟩ | s1
    · rw [applyAndFinish_phase_err render st app _ _ e1 s hHP]
      exact ((applyPhase_apps_frame app _ _).2 e1 s hHP).1
    · rcases hN : applyNotifications st app.name
          (if applicationExists st app.name then app.pipelines
            else importedUsages st app.pipelines)
          app.notifications
        with e1 | rows
      · rw [applyAndFinish_notif_err render st app _ _ s1 e1 hHP hN]
        exact ((applyPhase_apps_frame app _ _).1 s1 hHP).1
      · rw [applyAndFinish_success render st app _ _ s1 rows hHP hN]
        have h1 := ((applyPhase_apps_frame app _ _).1 s1 hHP).1
        show s1.store.applications ++
          (if applicationExists st app.name then (⟨[], []⟩ : Tx)
            else ⟨[app.name], []⟩).newApplications = st.applications
        rw [hex]
        simpa using h1
  · rw [runImport_validation_reject render st app true hg' e0 hL]

/-- A descriptor for a new application `refapp` with one usage of the
unknown pipeline `ghost` carrying a trigger whose destination
application `depapp` and source environment `stage` are unknown (its
destination environment `prod` exists). -/
def appBadRefs : Application :=
  ⟨"refapp", "", [⟨⟨"ghost", 0⟩, [⟨"depapp", "stage", "prod"⟩]⟩], [], [], [],
    false⟩

/-- C2, amended: the two terminal outcomes that write a response —
success and validation rejection — carry exactly the rendered,
deduplicated diagnostic list built from the accumulated messages (and
the trailing zero message the consumer appends); apply-phase failures
instead return a bare error that carries no diagnostic list at all (the
counterexample exhibits such a run). -/
theorem C2_response_outcomes_carry_rendered_list (render : Message → String)
    (st : Store) (app : Application) (fu : Bool) :
    (∀ msgs, (runImport render st app fu).outcome = Outcome.ok msgs →
      msgs = renderDedup render (consumerRun (channelReceives
        (runImport render st app fu).sent))) ∧
    (∀ e msgs, (runImport render st app fu).outcome =
        Outcome.domainError e msgs →
      msgs = renderDedup render (consumerRun (channelReceives
        (runImport render st app fu).sent))) :=
  runImport_msgs render st app fu

/-- Witness for `C2_response_outcomes_carry_rendered_list`: on a
concrete validation-rejected import the returned list is the rendered
deduplication of the accumulated messages. -/
theorem C2_response_outcomes_carry_rendered_list_witness :
    (["Pipeline ghost not found", "Application depapp not found",
      "Environment stage not found"] : List String) =
      renderDedup sampleRender (consumerRun (channelReceives
        (runImport sampleRender sampleStore appBadRefs false).sent)) :=
  (C2_response_outcomes_carry_rendered_list sampleRender sampleStore
    appBadRefs false).2 DomainErr.noEnvironment
    ["Pipeline ghost not found", "Application depapp not found",
      "Environment stage not found"] (by decide)

/-- C3, amended: importing a descriptor whose application name already
exists, with `forceUpdate` unset, yields the `AlreadyExists` outcome
with zero diagnostics and no change to the store, and the existence
check runs once, up front, before `db.Begin()` — but a transaction *is*
opened and then rolled back: the rejection at source line 118 sits
after `db.Begin()` at line 109. -/
theorem C3_amended_exists_guard (render : Message → String) (st : Store)
    (app : Application) (hex : applicationExists st app.name = true) :
    runImport render st app false =
      ⟨Outcome.errorReturn DomainErr.applicationExist, st,
        [Event.existsCheck app.name true, Event.txBegin, Event.txRollback],
        [], false⟩ :=
  runImport_already_exists render st app hex

/-- Witness for `C3_amended_exists_guard` at a concrete store and
descriptor. -/
theorem C3_amended_exists_guard_witness :
    runImport sampleRender sampleStore appAlreadyThere false =
      ⟨Outcome.errorReturn DomainErr.applicationExist, sampleStore,
        [Event.existsCheck "other" true, Event.txBegin, Event.txRollback],
        [], false⟩ :=
  C3_amended_exists_guard sampleRender sampleStore appAlreadyThere (by decide)

/-- C9: when the target application already exists and `forceUpdate` is
set, the early rejection is bypassed but the update path is disabled
(the `ImportUpdate` call is commented out), so the application records
in the store are left unchanged by the whole run, whatever the
outcome. -/
theorem C9_force_update_no_application_write (render : Message → String)
    (st : Store) (app : Application)
    (hex : applicationExists st app.name = true) :
    (runImport render st app true).store.applications = st.applications :=
  runImport_exist_apps_frame render st app hex

/-- Witness for `C9_force_update_no_application_write`: a concrete
forced re-import of an existing application commits without touching
the application records. -/
theorem C9_force_update_no_application_write_witness :
    (runImport sampleRender sampleStore appAlreadyThere true).store.applications =
      sampleStore.applications :=
  C9_force_update_no_application_write sampleRender sampleStore
    appAlreadyThere (by decide)

/-- C4: the validation pass emits exactly one "not found" diagnostic
per missing reference, in traversal order (the usage's pipeline, then
each trigger's destination application, source environment and
destination environment), never stops at the first problem, and any
missing reference makes the import terminate as a rejection carrying a
domain error, with nothing committed. -/
theorem C4_validation_completeness :
    (∀ (st : Store) (app : Application),
      (validation st app.name app.pipelines).map Prod.fst =
        (missingRefs st app).map notFoundMessage ∧
      (validation st app.name app.pipelines).length =
        (missingRefs st app).length) ∧
    (∀ (render : Message → String) (st : Store) (app : Application)
        (fu : Bool),
      (applicationExists st app.name && !fu) = false →
      missingRefs st app ≠ [] →
      ∃ e msgs, (runImport render st app fu).outcome =
          Outcome.domainError e msgs ∧
        (runImport render st app fu).committed = false) := by
  have key : ∀ (st : Store) (app : Application),
      (validation st app.name app.pipelines).map Prod.fst =
        (missingRefs st app).map notFoundMessage := by
    intro st app
    exact validation_eq st app.name app.pipelines
  constructor
  · intro st app
    refine ⟨key st app, ?_⟩
    have h1 : (validation st app.name app.pipelines).length =
        ((validation st app.name app.pipelines).map Prod.fst).length :=
      (List.length_map _ _).symm
    rw [h1, key st app, List.length_map]
  · intro render st app fu hg hne
    have hval_ne : validation st app.name app.pipelines ≠ [] := by
      intro h0
      apply hne
      have h2 := (key st app).symm
      rw [h0] at h2
      simpa using h2
    have hsnd_ne : (validation st app.name app.pipelines).map Prod.snd ≠ [] := by
      simpa using hval_ne
    obtain ⟨e, he⟩ : ∃ e,
        ((validation st app.name app.pipelines).map Prod.snd).getLast? =
          some e := by
      rcases hh : ((validation st app.name app.pipelines).map Prod.snd).getLast?
        with _ | e
      · exact absurd (List.getLast?_eq_none_iff.mp hh) hsnd_ne
      · exact ⟨e, rfl⟩
    rw [runImport_validation_reject render st app fu hg e he]
    exact ⟨e, _, rfl, rfl⟩

/-- Witness for `C4_validation_completeness`: a concrete descriptor with
three missing references is rejected with a domain error and nothing
committed. -/
theorem C4_validation_completeness_witness :
    ∃ e msgs, (runImport sampleRender sampleStore appBadRefs false).outcome =
        Outcome.domainError e msgs ∧
      (runImport sampleRender sampleStore appBadRefs false).committed =
        false :=
  C4_validation_completeness.2 sampleRender sampleStore appBadRefs false
    (by decide) (by decide)

theorem runImport_hook_hardstop (render : Message → String) (st : Store)
    (app : Application) (fu : Bool) (hs1 hs2 : List Hook) (h : Hook)
    (happ : applicationExists st app.name = false)
    (hval : validation st app.name app.pipelines = [])
    (hrm : app.hasRepositoriesManager = true)
    (hhooks : app.hooks = hs1 ++ h :: hs2)
    (hpre : ∀ h' ∈ hs1,
      (resolveAgainstUsages (importedUsages st app.pipelines) h'.pipeline).id ≠ 0)
    (hbad : (resolveAgainstUsages (importedUsages st app.pipelines)
      h.pipeline).id = 0) :
    runImport render st app fu =
      ⟨Outcome.errorReturn DomainErr.pipelineNotFound,
        { st with hooks := st.hooks ++
            hs1.map (hookRow app (importedUsages st app.pipelines)) },
        [Event.existsCheck app.name false, Event.txBegin, Event.txRollback],
        hs1.map (hookMsg app (importedUsages st app.pipelines)) ++
          [Message.appImportPipelineNotFound
            (resolveAgainstUsages (importedUsages st app.pipelines)
              h.pipeline).name],
        false⟩ := by
  have hg : (applicationExists st app.name && !fu) = false := by
    simp [happ]
  have hL : ((validation st app.name app.pipelines).map Prod.snd).getLast? =
      none := by
    simp [hval]
  have hHP : applyPhase app
      (if applicationExists st app.name then app.pipelines
        else importedUsages st app.pipelines)
      ⟨st, (validation st app.name app.pipelines).map Prod.fst⟩ =
      Except.error (DomainErr.pipelineNotFound,
        ⟨{ st with hooks := st.hooks ++
            hs1.map (hookRow app (importedUsages st app.pipelines)) },
          [] ++ hs1.map (hookMsg app (importedUsages st app.pipelines)) ++
            [Message.appImportPipelineNotFound
              (resolveAgainstUsages (importedUsages st app.pipelines)
                h.pipeline).name]⟩) := by
    rw [happ, hval]
    simp only [Bool.false_eq_true, if_false, List.map_nil, applyPhase, hrm,
      if_true, hhooks]
    rw [applyHooks_err app (importedUsages st app.pipelines) h hs2 hs1
      ⟨st, []⟩ hpre hbad]
  rw [runImport_apply_eq render st app fu hg hL,
    applyAndFinish_phase_err render st app _ _ _ _ hHP, happ]
  simp

/-- A descriptor for a new application `hookapp` using the existing
pipeline `build`, with one hook on `build` followed by one hook on the
unknown pipeline `ghost`. -/
def appTwoHooks : Application :=
  ⟨"hookapp", "org/hk", [⟨⟨"build", 0⟩, []⟩],
    [⟨⟨"build", 0⟩⟩, ⟨⟨"ghost", 0⟩⟩], [], [], true⟩

/-- C6: a missing pipeline for a top-level usage during validation is
soft — the diagnostic is collected and every remaining trigger and
usage is still checked; a missing pipeline for a hook during apply is
hard — the handler returns at once with pipeline-not-found, having
persisted and announced only the hooks before it, and no later hook,
poller or notification is attempted (the store's poller and
notification rows are untouched). -/
theorem C6_soft_validation_hard_apply :
    (∀ (st : Store) (appName : String) (u : PipelineUsage)
        (rest : List PipelineUsage),
      pipelineExists st u.pipeline.name = false →
      validation st appName (u :: rest) =
        (Message.appImportPipelineNotFound u.pipeline.name,
          DomainErr.pipelineNotFound) ::
        (u.triggers.flatMap (checkTrigger st appName) ++
          validation st appName rest)) ∧
    (∀ (render : Message → String) (st : Store) (app : Application)
        (fu : Bool) (hs1 hs2 : List Hook) (h : Hook),
      applicationExists st app.name = false →
      validation st app.name app.pipelines = [] →
      app.hasRepositoriesManager = true →
      app.hooks = hs1 ++ h :: hs2 →
      (∀ h' ∈ hs1, (resolveAgainstUsages (importedUsages st app.pipelines)
        h'.pipeline).id ≠ 0) →
      (resolveAgainstUsages (importedUsages st app.pipelines)
        h.pipeline).id = 0 →
      runImport render st app fu =
        ⟨Outcome.errorReturn DomainErr.pipelineNotFound,
          { st with hooks := st.hooks ++
              hs1.map (hookRow app (importedUsages st app.pipelines)) },
          [Event.existsCheck app.name false, Event.txBegin,
            Event.txRollback],
          hs1.map (hookMsg app (importedUsages st app.pipelines)) ++
            [Message.appImportPipelineNotFound
              (resolveAgainstUsages (importedUsages st app.pipelines)
                h.pipeline).name],
          false⟩) :=
  ⟨valid_soft, runImport_hook_hardstop⟩

/-- Witness for `C6_soft_validation_hard_apply`: a concrete import with
a resolvable hook followed by an unresolvable one stops at the second
hook, leaving only the first hook's row and messages. -/
theorem C6_soft_validation_hard_apply_witness :
    runImport sampleRender sampleStore appTwoHooks false =
      ⟨Outcome.errorReturn DomainErr.pipelineNotFound,
        { sampleStore with hooks := [⟨"hookapp", 5, "org/hk"⟩] },
        [Event.existsCheck "hookapp" false, Event.txBegin,
          Event.txRollback],
        [Message.hookCreated "org/hk" "build",
          Message.appImportPipelineNotFound "ghost"],
        false⟩ :=
  C6_soft_validation_hard_apply.2 sampleRender sampleStore appTwoHooks false
    [⟨⟨"build", 0⟩⟩] [] ⟨⟨"ghost", 0⟩⟩ (by decide) (by decide) (by decide)
    (by decide) (by decide) (by decide)

theorem lookupPipeline_of_exists (st : Store) (n : String)
    (h : pipelineExists st n = true) :
    ∃ q, lookupPipeline st n = some q ∧ q ∈ st.pipelines ∧ q.name = n := by
  have h1 : (st.pipelines.find? (fun q => q.name == n)).isSome := by
    rw [List.find?_isSome]
    simpa [pipelineExists, List.any_eq_true] using h
  obtain ⟨q, hq⟩ := Option.isSome_iff_exists.mp h1
  exact ⟨q, hq, List.mem_of_find?_eq_some hq,
    by simpa using List.find?_some hq⟩

theorem importedUsages_id_ne (st : Store) (ps : List PipelineUsage)
    (hwf : ∀ q ∈ st.pipelines, q.id ≠ 0)
    (hex : ∀ u ∈ ps, pipelineExists st u.pipeline.name = true) :
    ∀ v ∈ importedUsages st ps, v.pipeline.id ≠ 0 := by
  intro v hv
  obtain ⟨u0, hu0, rfl⟩ := List.mem_map.mp hv
  obtain ⟨q, hq, hqmem, _⟩ := lookupPipeline_of_exists st u0.pipeline.name
    (hex u0 hu0)
  rw [hq]
  exact hwf q hqmem

theorem importedUsages_names (st : Store) (ps : List PipelineUsage)
    (hex : ∀ u ∈ ps, pipelineExists st u.pipeline.name = true) :
    (importedUsages st ps).map (fun v => v.pipeline.name) =
      ps.map (fun u => u.pipeline.name) := by
  unfold importedUsages
  rw [List.map_map]
  apply List.map_congr_left
  intro u hu
  obtain ⟨q, hq, _, hqname⟩ := lookupPipeline_of_exists st u.pipeline.name
    (hex u hu)
  simp [hq, hqname]

theorem resolve_id_zero_eq (st : Store) (ps : List PipelineUsage)
    (p : Pipeline)
    (hwf : ∀ q ∈ st.pipelines, q.id ≠ 0)
    (hex : ∀ u ∈ ps, pipelineExists st u.pipeline.name = true)
    (hid : (resolveAgainstUsages (importedUsages st ps) p).id = 0) :
    resolveAgainstUsages (importedUsages st ps) p = p := by
  unfold resolveAgainstUsages at hid ⊢
  rcases hf : (importedUsages st ps).find? (fun v => v.pipeline.name == p.name)
    with _ | u
  · rw [hf]
  · rw [hf] at hid
    exact absurd hid
      (importedUsages_id_ne st ps hwf hex u (List.mem_of_find?_eq_some hf))

theorem resolve_id_ne_iff (st : Store) (ps : List PipelineUsage)
    (p : Pipeline)
    (hwf : ∀ q ∈ st.pipelines, q.id ≠ 0)
    (hex : ∀ u ∈ ps, pipelineExists st u.pipeline.name = true)
    (hp0 : p.id = 0) :
    (resolveAgainstUsages (importedUsages st ps) p).id ≠ 0 ↔
      p.name ∈ ps.map (fun u => u.pipeline.name) := by
  rw [← importedUsages_names st ps hex]
  unfold resolveAgainstUsages
  rcases hf : (importedUsages st ps).find? (fun v => v.pipeline.name == p.name)
    with _ | u
  · rw [hf]
    simp only [hp0]
    constructor
    · intro h0; exact absurd rfl h0
    · intro hmem
      obtain ⟨v, hvmem, hvname⟩ := List.mem_map.mp hmem
      have := List.find?_eq_none.mp hf v hvmem
      simp [hvname] at this
  · rw [hf]
    constructor
    · intro _
      exact List.mem_map.mpr ⟨u, List.mem_of_find?_eq_some hf,
        by simpa using List.find?_some hf⟩
    · intro _
      exact importedUsages_id_ne st ps hwf hex u (List.mem_of_find?_eq_some hf)

/-- C5, amended: during the apply phase a hook's or poller's pipeline
reference resolves to a nonzero identifier exactly when that pipeline
is named among the descriptor's pipeline usages (whose identifiers were
established against the project during the import's attach step); a
reference absent from the usages hard-stops with pipeline-not-found —
even when the pipeline pre-exists in the project — and a resolved one
is persisted with a created message.  Hypotheses: project pipeline
identifiers are nonzero and every usage's pipeline exists in the
project (the state in which the apply phase runs). -/
theorem C5_hook_poller_resolution (st : Store) (ps : List PipelineUsage)
    (p : Pipeline)
    (hwf : ∀ q ∈ st.pipelines, q.id ≠ 0)
    (hex : ∀ u ∈ ps, pipelineExists st u.pipeline.name = true)
    (hp0 : p.id = 0) :
    ((resolveAgainstUsages (importedUsages st ps) p).id ≠ 0 ↔
      p.name ∈ ps.map (fun u => u.pipeline.name)) ∧
    (∀ (app : Application) (s : ApplyState) (h : Hook), h.pipeline = p →
      (resolveAgainstUsages (importedUsages st ps) p).id = 0 →
      applyHooks app (importedUsages st ps) s [h] = Except.error
        (DomainErr.pipelineNotFound,
          ⟨s.store, s.sent ++ [Message.appImportPipelineNotFound p.name]⟩)) ∧
    (∀ (app : Application) (s : ApplyState) (h : Poller), h.pipeline = p →
      (resolveAgainstUsages (importedUsages st ps) p).id = 0 →
      applyPollers app (importedUsages st ps) s [h] = Except.error
        (DomainErr.pipelineNotFound,
          ⟨s.store, s.sent ++ [Message.appImportPipelineNotFound p.name]⟩)) ∧
    (∀ (app : Application) (s : ApplyState) (h : Hook), h.pipeline = p →
      (resolveAgainstUsages (importedUsages st ps) p).id ≠ 0 →
      applyHooks app (importedUsages st ps) s [h] = Except.ok
        ⟨{ s.store with hooks := s.store.hooks ++
            [⟨app.name, (resolveAgainstUsages (importedUsages st ps) p).id,
              app.repositoryFullname⟩] },
          s.sent ++ [Message.hookCreated app.repositoryFullname
            (resolveAgainstUsages (importedUsages st ps) p).name]⟩) := by
  refine ⟨resolve_id_ne_iff st ps p hwf hex hp0, ?_, ?_, ?_⟩
  · intro app s h hpl hid
    have hres := resolve_id_zero_eq st ps p hwf hex hid
    simp [applyHooks, hpl, hres, hp0]
  · intro app s h hpl hid
    have hres := resolve_id_zero_eq st ps p hwf hex hid
    simp [applyPollers, hpl, hres, hp0]
  · intro app s h hpl hid
    simp [applyHooks, hpl, hid]

/-- Witness for `C5_hook_poller_resolution`: the hook on `legacy`,
absent from the descriptor's usages, hard-stops even though `legacy`
pre-exists in the project. -/
theorem C5_hook_poller_resolution_witness :
    applyHooks appHookOnLegacy
      (importedUsages sampleStore appHookOnLegacy.pipelines)
      ⟨sampleStore, []⟩ [⟨⟨"legacy", 0⟩⟩] = Except.error
        (DomainErr.pipelineNotFound,
          ⟨sampleStore, [Message.appImportPipelineNotFound "legacy"]⟩) :=
  (C5_hook_poller_resolution sampleStore appHookOnLegacy.pipelines
    ⟨"legacy", 0⟩ (by decide) (by decide) rfl).2.1 appHookOnLegacy
    ⟨sampleStore, []⟩ ⟨⟨"legacy", 0⟩⟩ rfl (by decide)

/-- C8: each notification setting's pipeline name is resolved among the
descriptor's pipeline usages with a hard stop carrying
`PipelineNotFound` when unresolved; its environment name, when empty or
equal to the default sentinel, maps to the default environment's
identifier, and otherwise is looked up among the project's environments
with a hard stop carrying the no-environment error when absent; on
success the notification row is persisted through the transaction and
no "created" diagnostic is emitted (the handler's sent-message list
gains nothing from the notification loop). -/
theorem C8_notification_resolution :
    (∀ (st : Store) (appName : String) (usages : List PipelineUsage)
        (n : Notification),
      (∀ u ∈ usages, u.pipeline.id ≠ 0) →
      (∀ e ∈ st.environments, e.id ≠ 0) →
      (n.pipelineName ∉ usages.map (fun u => u.pipeline.name) →
        applyNotification st appName usages n =
          Except.error DomainErr.pipelineNotFound) ∧
      (∀ u, usages.find? (fun v => v.pipeline.name == n.pipelineName) =
          some u →
        ((n.environmentName = "" ∨ n.environmentName = defaultEnvName) →
          applyNotification st appName usages n =
            Except.ok ⟨appName, u.pipeline.id, defaultEnv.id⟩) ∧
        (n.environmentName ≠ "" → n.environmentName ≠ defaultEnvName →
          (∀ env, st.environments.find?
              (fun e => e.name == n.environmentName) = some env →
            applyNotification st appName usages n =
              Except.ok ⟨appName, u.pipeline.id, env.id⟩) ∧
          (n.environmentName ∉ st.environments.map (fun e => e.name) →
            applyNotification st appName usages n =
              Except.error DomainErr.noEnvironment)))) ∧
    (∀ (render : Message → String) (st : Store) (app : Application)
        (fu : Bool) (rows : List NotifRec),
      applicationExists st app.name = false →
      validation st app.name app.pipelines = [] →
      app.hasRepositoriesManager = false →
      applyNotifications st app.name (importedUsages st app.pipelines)
        app.notifications = Except.ok rows →
      runImport render st app fu =
        ⟨Outcome.ok (renderDedup render (consumerRun (channelReceives []))),
          { st with
            applications := st.applications ++ [app.name],
            notifications := st.notifications ++ rows },
          [Event.existsCheck app.name false, Event.txBegin, Event.txCommit],
          [], true⟩) := by
  constructor
  · intro st appName usages n hu he
    constructor
    · intro hnot
      have hf : usages.find? (fun v => v.pipeline.name == n.pipelineName) =
          none := by
        rw [List.find?_eq_none]
        intro v hv hbeq
        exact hnot (List.mem_map.mpr ⟨v, hv, by simpa using hbeq⟩)
      simp [applyNotification, hf]
    · intro u hf
      have hid : u.pipeline.id ≠ 0 := hu u (List.mem_of_find?_eq_some hf)
      constructor
      · intro henv
        have hcond : (n.environmentName == "" ||
            n.environmentName == defaultEnvName) = true := by
          rcases henv with h | h <;> simp [h]
        simp [applyNotification, hf, hcond, hid, defaultEnv]
      · intro hne1 hne2
        have hcond : (n.environmentName == "" ||
            n.environmentName == defaultEnvName) = false := by
          simp [hne1, hne2]
        constructor
        · intro env henvf
          have heid : env.id ≠ 0 := he env (List.mem_of_find?_eq_some henvf)
          simp [applyNotification, hf, hcond, henvf, hid, heid]
        · intro hnotenv
          have henvf : st.environments.find?
              (fun e => e.name == n.environmentName) = none := by
            rw [List.find?_eq_none]
            intro v hv hbeq
            exact hnotenv (List.mem_map.mpr ⟨v, hv, by simpa using hbeq⟩)
          simp [applyNotification, hf, hcond, henvf, hid]
  · intro render st app fu rows hex hval hrm hN
    have hg : (applicationExists st app.name && !fu) = false := by
      simp [hex]
    have hL : ((validation st app.name app.pipelines).map Prod.snd).getLast? =
        none := by
      simp [hval]
    rw [runImport_apply_eq render st app fu hg hL, hex, hval]
    have hHP : applyPhase app
        (if (false : Bool) then app.pipelines
          else importedUsages st app.pipelines)
        ⟨st, ([] : List (Message × DomainErr)).map Prod.fst⟩ =
        Except.ok ⟨st, []⟩ := by
      simp [applyPhase, hrm]
    rw [applyAndFinish_success render st app false _ ⟨st, []⟩ rows hHP hN]
    rfl

/-- A descriptor for a new application `notifapp` using the existing
pipeline `build` with one notification on `build` in environment
`prod`. -/
def appWithNotif : Application :=
  ⟨"notifapp", "", [⟨⟨"build", 0⟩, []⟩], [], [],
    [⟨"build", "prod"⟩], false⟩

/-- Witness for `C8_notification_resolution`: a concrete import whose
only extra entity is a notification commits with the notification row
persisted and an empty sent-message list. -/
theorem C8_notification_resolution_witness :
    runImport sampleRender sampleStore appWithNotif false =
      ⟨Outcome.ok (renderDedup sampleRender (consumerRun (channelReceives []))),
        { sampleStore with
          applications := sampleStore.applications ++ ["notifapp"],
          notifications := sampleStore.notifications ++ [⟨"notifapp", 5, 3⟩] },
        [Event.existsCheck "notifapp" false, Event.txBegin, Event.txCommit],
        [], true⟩ :=
  C8_notification_resolution.2 sampleRender sampleStore appWithNotif false
    [⟨"notifapp", 5, 3⟩] (by decide) (by decide) (by decide) rfl
